import Mathlib

/-!
# Live API relay (`backend-go`): a shallow embedding

The development embeds the Go sources

* `internal/tools/weather.go`  (`WeatherTool`, `HandleGetCurrentWeather`),
* `internal/tools/rag.go`      (the declaration `RagTool`),
* `internal/handler/websocket.go` (`WebSocketHandler.Handle`: the goroutine
  "Gemini -> Client" and the main loop "Client -> Gemini").

Go values of static type `any` are an inductive type, `map[string]any` is an
association list read with first-match lookup.  The two loops of `Handle` are
functions from a script of the answers the outside world gives (what
`session.Receive`, `session.SendToolResponse`, `ws.Write`, `ws.Read`,
`session.SendRealtimeInput` and the poll of `done` return) to the list of the
externally visible actions the loop performs, in program order, together with
the way the loop ended.  A script that is used up leaves the loop blocked in
its next `Receive` / `Read`.  `log.Printf` calls are not part of the trace.
The entries of a `[]*FunctionCall` and of a `[]*Part` are pointers and may be
nil; a nil pointer dereference is a run-time panic, which ends the goroutine
and, after its deferred `close(done)`, the process.
-/

namespace LiveApi

/-! ## Go values -/

mutual
/-- A Go value of static type `any`, as far as the relay can meet one: the
values `encoding/json` decodes into (`nil`, `bool`, `float64`, `string`,
`[]any`, `map[string]any`) and `int`, which the weather handler itself
produces.  A `float64` is carried as its bit pattern; no arithmetic is done
on it. -/
inductive GoAny where
  | nil : GoAny
  | bool (b : Bool) : GoAny
  | int (i : Int) : GoAny
  | float64 (bits : Nat) : GoAny
  | str (s : String) : GoAny
  | slice (xs : GoSlice) : GoAny
  | map (kvs : GoFields) : GoAny
/-- The elements of a nested `[]any`. -/
inductive GoSlice where
  | nil : GoSlice
  | cons (x : GoAny) (xs : GoSlice) : GoSlice
/-- The entries of a nested `map[string]any`. -/
inductive GoFields where
  | nil : GoFields
  | cons (k : String) (v : GoAny) (rest : GoFields) : GoFields
end

deriving instance DecidableEq for GoAny, GoSlice, GoFields

/-- A `map[string]any`: an association list, read with first-match lookup.
The empty list is both the empty and the `nil` map. -/
abbrev GoMap := List (String × GoAny)

/-- Go `m[k]` on a `map[string]any`: the stored value, or the zero value of
`any` (the `nil` interface) when the key is absent. -/
def GoMap.index (m : GoMap) (k : String) : GoAny :=
  (List.lookup k m).getD GoAny.nil

/-- Whether the map has an entry under the key. -/
def GoMap.hasKey (m : GoMap) (k : String) : Bool :=
  (List.lookup k m).isSome

/-- Go `v.(string)` in its two-result form: `some s` when the dynamic type of
`v` is `string` (`ok` is true), `none` otherwise (`ok` is false). -/
def GoAny.assertString : GoAny → Option String
  | GoAny.str s => some s
  | _ => none

/-- A byte of a Go `[]byte`. -/
abbrev Byte := Nat

/-! ## The `genai` data the handler touches -/

/-- The type `genai.FunctionDeclaration`: name, description, the names of the declared
properties and the required subset. -/
structure FunctionDeclaration where
  Name : String
  Description : String
  Properties : List String
  Required : List String
  deriving DecidableEq

/-- The type `genai.Tool`. -/
structure Tool where
  FunctionDeclarations : List FunctionDeclaration
  deriving DecidableEq

/-- The type `genai.FunctionCall`. -/
structure FunctionCall where
  ID : String
  Name : String
  Args : GoMap
  deriving DecidableEq

/-- The type `genai.LiveServerToolCall`.  Its field is a `[]*FunctionCall`:
an entry is a pointer, `none` is the nil pointer (what the JSON value `null`
decodes to). -/
structure LiveServerToolCall where
  FunctionCalls : List (Option FunctionCall)
  deriving DecidableEq

/-- The type `genai.Part`, with the fields the handler looks at. -/
structure Part where
  Text : String
  FunctionCall : Option FunctionCall
  deriving DecidableEq

/-- The type `genai.Content`.  Its field is a `[]*Part`: `none` is the nil
pointer. -/
structure Content where
  Parts : List (Option Part)
  deriving DecidableEq

/-- The type `genai.LiveServerContent`. -/
structure LiveServerContent where
  ModelTurn : Option Content
  deriving DecidableEq

/-- The type `genai.LiveServerMessage`: the pointer fields the goroutine tests against
`nil`; the payload of the two voice-activity fields is carried as text. -/
structure LiveServerMessage where
  ToolCall : Option LiveServerToolCall
  ServerContent : Option LiveServerContent
  VoiceActivity : Option String
  VoiceActivityDetectionSignal : Option String
  deriving DecidableEq

/-- The type `genai.FunctionResponse`. -/
structure FunctionResponse where
  Name : String
  ID : String
  Response : GoMap
  deriving DecidableEq

/-- The type `genai.LiveToolResponseInput`. -/
structure LiveToolResponseInput where
  FunctionResponses : List FunctionResponse
  deriving DecidableEq

/-- The type `genai.Blob`. -/
structure Blob where
  MIMEType : String
  Data : List Byte
  deriving DecidableEq

/-- The type `genai.LiveRealtimeInput`, with the one field the handler sets. -/
structure LiveRealtimeInput where
  Media : Option Blob
  deriving DecidableEq

/-! ## `internal/tools` -/

namespace tools

/-- The declaration `WeatherTool` of `weather.go`. -/
def WeatherTool : Tool :=
  { FunctionDeclarations :=
      [{ Name := "get_current_weather",
         Description := "Get the current weather in a given location",
         Properties := ["location"],
         Required := ["location"] }] }

/-- The declaration `RagTool` of `rag.go` (its long description shortened to
the first sentence). -/
def RagTool : Tool :=
  { FunctionDeclarations :=
      [{ Name := "search_zero_trust_docs",
         Description := "Retrieves information from the internal knowledge base specifically related to Zero Trust Architecture.",
         Properties := ["query"],
         Required := ["query"] }] }

/-- The function `HandleGetCurrentWeather` of `weather.go`:
`location, ok := args["location"].(string)`; without `ok` the error mapping,
otherwise the mock report. -/
def HandleGetCurrentWeather (args : GoMap) : GoMap :=
  match (args.index "location").assertString with
  | none => [("error", GoAny.str "location argument is required and must be a string")]
  | some location =>
    [("weather", GoAny.str "Sunny"),
     ("temperature", GoAny.int 25),
     ("location", GoAny.str location),
     ("note", GoAny.str "This is mock data from the backend tool")]

end tools

/-! ## `internal/handler`: actions and scripts -/

/-- The externally visible actions of one run of `Handle`, each with what the
outside world answered. -/
inductive Action where
  /-- The call `h.Client.Connect(ctx, model, tools)` and whether it succeeded. -/
  | connect (model : String) (tools : List Tool) (ok : Bool) : Action
  /-- The statement `go func() ...`: the goroutine "Gemini -> Client" starts. -/
  | go : Action
  /-- The call `session.Receive()` returned a message. -/
  | receive (msg : LiveServerMessage) : Action
  /-- The call `session.Receive()` returned an error with this text. -/
  | receiveErr (text : String) : Action
  /-- The call `session.SendToolResponse(input)` and whether it succeeded. -/
  | sendToolResponse (input : LiveToolResponseInput) (ok : Bool) : Action
  /-- The call `ws.Write(respBytes)` and whether it succeeded. -/
  | wsWrite (respBytes : List Byte) (ok : Bool) : Action
  /-- The deferred `close(done)` of the goroutine. -/
  | closeDone : Action
  /-- The goroutine dereferenced a nil pointer and nothing recovers the
  run-time panic: after the deferred calls of the goroutine the Go runtime
  terminates the whole process. -/
  | crash : Action
  /-- The call `ws.Read(buf)` succeeded and copied these bytes into `buf`. -/
  | wsRead (got : List Byte) : Action
  /-- The call `ws.Read(buf)` returned an error; `eof` tells whether it is `io.EOF`. -/
  | wsReadErr (eof : Bool) : Action
  /-- The call `session.SendRealtimeInput(input)` and whether it succeeded. -/
  | sendRealtimeInput (input : LiveRealtimeInput) (ok : Bool) : Action
  /-- The non-blocking `select` on `done`: `closed` tells whether the case
  `<-done` was taken. -/
  | pollDone (closed : Bool) : Action
  /-- The deferred `session.Close()`. -/
  | sessionClose : Action
  /-- The deferred `ws.Close()`. -/
  | wsClose : Action
  deriving DecidableEq

/-- One answer of the upstream side to the goroutine: `Receive` fails, or it
returns a message; for a message, the outcomes of the `SendToolResponse`
calls it leads to (in call order; a missing entry stands for success) and of
the `ws.Write`, each consulted only if the code gets to that call. -/
inductive RecvStep where
  | err (text : String) : RecvStep
  | msg (m : LiveServerMessage) (sendOks : List Bool) (writeOk : Bool) : RecvStep

/-- One answer of the client side to the main loop: `ws.Read` fails (with
`io.EOF` or another error), or it delivers bytes; for a delivery, the outcome
of the `SendRealtimeInput` call and what the poll of `done` finds, each
consulted only if the code gets there. -/
inductive ReadStep where
  | err (eof : Bool) : ReadStep
  | data (incoming : List Byte) (sendOk : Bool) (doneClosed : Bool) : ReadStep

/-- How the goroutine "Gemini -> Client" stands at the end of its script. -/
inductive OutStatus where
  /-- The script is used up: the goroutine waits in `session.Receive()`. -/
  | blocked : OutStatus
  /-- The goroutine returned (and its deferred `close(done)` ran). -/
  | exited : OutStatus
  /-- The goroutine panicked on a nil pointer (its deferred `close(done)`
  ran, then the process was terminated). -/
  | panicked : OutStatus
  deriving DecidableEq

/-- How the main loop "Client -> Gemini" stands at the end of its script. -/
inductive InStatus where
  /-- The script is used up: the loop waits in `ws.Read(buf)`. -/
  | blocked : InStatus
  /-- The loop was left with `break`. -/
  | broke : InStatus
  /-- The loop was left with `return`, in the case `<-done`. -/
  | returned : InStatus
  deriving DecidableEq

/-! ## The goroutine "Gemini -> Client" (websocket.go, lines 44-129) -/

/-- The tool dispatch of lines 73-78: `HandleGetCurrentWeather` for the name
`get_current_weather`, the mapping `"error": "Unknown function"` for every
other name. -/
def toolResult (fc : FunctionCall) : GoMap :=
  if fc.Name = "get_current_weather" then
    tools.HandleGetCurrentWeather fc.Args
  else
    [("error", GoAny.str "Unknown function")]

/-- The argument of `session.SendToolResponse` of lines 81-89: one function
response with the name and the id of the call and the dispatch result. -/
def toolResponseInput (fc : FunctionCall) : LiveToolResponseInput :=
  { FunctionResponses := [{ Name := fc.Name, ID := fc.ID, Response := toolResult fc }] }

/-- The loop `for _, fc := range msg.ToolCall.FunctionCalls` of lines 69-95
over the entries of the slice: one `SendToolResponse` per call, whose error
is logged and nothing else.  At a nil entry `fc.Name` (line 70) is a nil
pointer dereference: the loop stops there with a run-time panic.  The result
is the actions done and whether the loop panicked. -/
def toolCallActions : List (Option FunctionCall) → List Bool → List Action × Bool
  | [], _ => ([], false)
  | none :: _, _ => ([], true)
  | some fc :: fcs, oks =>
    let r := toolCallActions fcs oks.tail
    (Action.sendToolResponse (toolResponseInput fc) (oks.headD true) :: r.1, r.2)

/-- The block `if msg.ToolCall != nil` of lines 68-96. -/
def toolCallBlock (msg : LiveServerMessage) (sendOks : List Bool) : List Action × Bool :=
  match msg.ToolCall with
  | none => ([], false)
  | some tc => toolCallActions tc.FunctionCalls sendOks

/-- The block `if msg.ServerContent != nil && msg.ServerContent.ModelTurn != nil`
of lines 99-106: it only logs, but `part.FunctionCall` (line 101) is a nil
pointer dereference at a nil entry of `Parts`.  The result tells whether the
block panics. -/
def modelTurnPanics (msg : LiveServerMessage) : Bool :=
  match msg.ServerContent with
  | none => false
  | some sc =>
    match sc.ModelTurn with
    | none => false
    | some turn => turn.Parts.any (fun part => part.isNone)

/-- The loop of the goroutine, lines 46-128, with the deferred `close(done)`
of line 45 at each `return` and at a panic.  `marshal` is `json.Marshal` on a
message: `none` is an error.  Both kinds of `Receive` error (lines 50-55)
return; the block of lines 58-65 only logs.  A nil pointer dereference in
lines 68-106 panics: the deferred `close(done)` runs and, nothing recovering
the panic, the process is terminated. -/
def outboundLoop (marshal : LiveServerMessage → Option (List Byte)) :
    List RecvStep → List Action × OutStatus
  | [] => ([], OutStatus.blocked)
  | RecvStep.err text :: _ => ([Action.receiveErr text, Action.closeDone], OutStatus.exited)
  | RecvStep.msg m sendOks writeOk :: rest =>
    let calls := toolCallBlock m sendOks
    let handled := Action.receive m :: calls.1
    if calls.2 || modelTurnPanics m then
      (handled ++ [Action.closeDone, Action.crash], OutStatus.panicked)
    else
      match marshal m with
      | none =>
        let r := outboundLoop marshal rest
        (handled ++ r.1, r.2)
      | some respBytes =>
        if writeOk then
          let r := outboundLoop marshal rest
          (handled ++ Action.wsWrite respBytes true :: r.1, r.2)
        else
          (handled ++ [Action.wsWrite respBytes false, Action.closeDone], OutStatus.exited)

/-- Whether the message holds no nil pointer where the goroutine dereferences
one: no nil entry among the function calls of its tool call, none among the
parts of its model turn. -/
def LiveServerMessage.nilFree (msg : LiveServerMessage) : Bool :=
  (match msg.ToolCall with
    | none => true
    | some tc => tc.FunctionCalls.all (fun fc => fc.isSome)) &&
  (match msg.ServerContent with
    | none => true
    | some sc =>
      match sc.ModelTurn with
      | none => true
      | some turn => turn.Parts.all (fun part => part.isSome))

/-! ## The main loop "Client -> Gemini" (websocket.go, lines 141-173) -/

/-- The call `n, err := ws.Read(buf)` when it succeeds: of the bytes the
transport delivers, as many as `buf` holds are copied to the front of `buf`
(an `io.Reader` never returns more than `len(buf)`); the result is the new
buffer and the bytes copied, whose number is `n`. -/
def wsRead (buf incoming : List Byte) : List Byte × List Byte :=
  let got := incoming.take buf.length
  (got ++ buf.drop got.length, got)

/-- The argument of `session.SendRealtimeInput` of lines 156-161: the blob
`buf[:n]` with the fixed MIME type.  The slice shares `buf`; the call is
taken to be done with it when it returns, before the next `ws.Read`. -/
def realtimeInput (buf : List Byte) (n : Nat) : LiveRealtimeInput :=
  { Media := some { MIMEType := "audio/pcm;rate=16000", Data := buf.take n } }

/-- The main loop, lines 142-173, from the buffer `buf`. -/
def inboundLoop (buf : List Byte) : List ReadStep → List Action × InStatus
  | [] => ([], InStatus.blocked)
  | ReadStep.err eof :: _ => ([Action.wsReadErr eof], InStatus.broke)
  | ReadStep.data incoming sendOk doneClosed :: rest =>
    let buf' := (wsRead buf incoming).1
    let got := (wsRead buf incoming).2
    let n := got.length
    let sent :=
      if n > 0 then [Action.sendRealtimeInput (realtimeInput buf' n) sendOk] else []
    if n > 0 ∧ sendOk = false then
      (Action.wsRead got :: sent, InStatus.broke)
    else if doneClosed then
      (Action.wsRead got :: sent ++ [Action.pollDone true], InStatus.returned)
    else
      let r := inboundLoop buf' rest
      (Action.wsRead got :: sent ++ Action.pollDone false :: r.1, r.2)

/-! ## `WebSocketHandler.Handle` -/

/-- One run of `Handle`: the actions of the function itself (the main
goroutine), those of the goroutine "Gemini -> Client", and how each stands. -/
structure Run where
  /-- The actions of `Handle` itself, deferred calls included. -/
  main : List Action
  /-- The actions of the goroutine "Gemini -> Client". -/
  goroutine : List Action
  /-- Whether `Handle` returned. -/
  returned : Bool
  /-- Whether the goroutine was started. -/
  started : Bool
  /-- How the goroutine stands (`blocked` also when it was never started). -/
  outStatus : OutStatus
  deriving DecidableEq

/-- The deferred calls that run when `Handle` leaves its main loop, by
`break` or by `return`: `session.Close()`, then `ws.Close()`.  None has run
while the loop is still blocked in `ws.Read`. -/
def deferredCloses (s : InStatus) : List Action :=
  if s = InStatus.blocked then [] else [Action.sessionClose, Action.wsClose]

/-- The model name of line 26. -/
def model : String := "gemini-live-2.5-flash-native-audio"

/-- The function `Handle` of websocket.go.  `connectOk` is the outcome of
`h.Client.Connect`, called with the model name and the one tool
`tools.WeatherTool`; `upstream` and `client` script the two loops.  The
deferred `ws.Close()` runs at every return, the deferred `session.Close()`
(before it) at every return after a successful connect. -/
def Handle (marshal : LiveServerMessage → Option (List Byte)) (connectOk : Bool)
    (upstream : List RecvStep) (client : List ReadStep) : Run :=
  let c := Action.connect model [tools.WeatherTool] connectOk
  if connectOk then
    let o := outboundLoop marshal upstream
    let i := inboundLoop (List.replicate 4096 0) client
    { main := c :: Action.go :: (i.1 ++ deferredCloses i.2),
      goroutine := o.1,
      returned := decide (i.2 ≠ InStatus.blocked),
      started := true,
      outStatus := o.2 }
  else
    { main := [c, Action.wsClose],
      goroutine := [],
      returned := true,
      started := false,
      outStatus := OutStatus.blocked }

/-! ## Runs of the whole session: interleavings -/

/-- Whether the action belongs to the goroutine "Gemini -> Client"; every
other action belongs to `Handle` itself. -/
def Action.isGoroutine : Action → Bool
  | Action.receive _ => true
  | Action.receiveErr _ => true
  | Action.sendToolResponse _ _ => true
  | Action.wsWrite _ _ => true
  | Action.closeDone => true
  | Action.crash => true
  | _ => false

/-- Whether the action is a `SendRealtimeInput` call. -/
def Action.isSendRealtimeInput : Action → Bool
  | Action.sendRealtimeInput _ _ => true
  | _ => false

/-- Whether the action is a successful `ws.Read`. -/
def Action.isWsRead : Action → Bool
  | Action.wsRead _ => true
  | _ => false

/-- Whether every poll of `done` in the trace sees what the trace says: the
channel is closed at a poll exactly when a `close(done)` stands before it.
`closed` is the state of the channel at the start of the trace. -/
def doneConsistent : Bool → List Action → Bool
  | _, [] => true
  | _, Action.closeDone :: t => doneConsistent true t
  | closed, Action.pollDone b :: t => (b == closed) && doneConsistent closed t
  | closed, _ :: t => doneConsistent closed t

/-- Whether no action of the goroutine stands before the statement `go`.
`started` tells whether `go` was already passed. -/
def goOrdered : Bool → List Action → Bool
  | _, [] => true
  | _, Action.go :: t => goOrdered true t
  | started, a :: t => (started || !a.isGoroutine) && goOrdered started t

/-- A global trace of the run `r`: an interleaving of the actions of `Handle`
and of the goroutine that keeps the program order of each, starts the
goroutine at `go`, and in which every poll of `done` sees the channel as the
trace has it. -/
def isSessionTrace (r : Run) (t : List Action) : Prop :=
  t.filter (fun a => !a.isGoroutine) = r.main ∧
  t.filter (fun a => a.isGoroutine) = r.goroutine ∧
  goOrdered false t = true ∧
  doneConsistent false t = true

instance (r : Run) (t : List Action) : Decidable (isSessionTrace r t) := by
  unfold isSessionTrace; infer_instance

/-- The part of a trace after its first `close(done)`; empty when the trace
has none. -/
def afterClose : List Action → List Action
  | [] => []
  | Action.closeDone :: t => t
  | _ :: t => afterClose t

/-- The input of a `SendRealtimeInput` call. -/
def Action.realtimeSent : Action → Option LiveRealtimeInput
  | Action.sendRealtimeInput input _ => some input
  | _ => none

/-- The bytes a successful `ws.Read` returned. -/
def Action.chunkRead : Action → Option (List Byte)
  | Action.wsRead got => some got
  | _ => none

/-- The bytes passed to a `ws.Write`. -/
def Action.written : Action → Option (List Byte)
  | Action.wsWrite respBytes _ => some respBytes
  | _ => none

/-- The message a `session.Receive` returned. -/
def Action.received : Action → Option LiveServerMessage
  | Action.receive m => some m
  | _ => none

/-- The input of a `SendToolResponse` call. -/
def Action.toolSent : Action → Option LiveToolResponseInput
  | Action.sendToolResponse input _ => some input
  | _ => none

/-- The `SendRealtimeInput` calls of a trace, in order, as the inputs passed. -/
def sentInputs (t : List Action) : List LiveRealtimeInput :=
  t.filterMap Action.realtimeSent

/-- The successful reads of a trace, in order, as the bytes each returned. -/
def readChunks (t : List Action) : List (List Byte) :=
  t.filterMap Action.chunkRead

/-- The client writes of a trace, in order, as the bytes written. -/
def clientWrites (t : List Action) : List (List Byte) :=
  t.filterMap Action.written

/-- The messages a trace receives, in order. -/
def receivedMsgs (t : List Action) : List LiveServerMessage :=
  t.filterMap Action.received

/-- The `SendToolResponse` calls of a trace, in order, as the inputs passed. -/
def toolResponses (t : List Action) : List LiveToolResponseInput :=
  t.filterMap Action.toolSent

/-- What the main loop sends for a chunk: the blob with the fixed MIME type
for a chunk of positive length, nothing for an empty one. -/
def audioFor (got : List Byte) : Option LiveRealtimeInput :=
  if 0 < got.length then
    some { Media := some { MIMEType := "audio/pcm;rate=16000", Data := got } }
  else none

/-- The `SendRealtimeInput` action for a chunk, with the outcome `ok`: one
action for a chunk of positive length, none for an empty one. -/
def audioActions (got : List Byte) (ok : Bool) : List Action :=
  (audioFor got).toList.map (fun input => Action.sendRealtimeInput input ok)


/-! ## Sample data for the concrete runs -/

/-- A message without tool call, carrying the given voice-activity payload. -/
def voiceMsg (v : Option String) : LiveServerMessage :=
  { ToolCall := none, ServerContent := none, VoiceActivity := v,
    VoiceActivityDetectionSignal := none }

/-- A message with the given entries in the function calls of its tool call
and nothing else. -/
def toolCallMsg (entries : List (Option FunctionCall)) : LiveServerMessage :=
  { ToolCall := some { FunctionCalls := entries }, ServerContent := none,
    VoiceActivity := none, VoiceActivityDetectionSignal := none }

/-- Whether the bit pattern of a `float64` is a NaN or an infinity, the
values `encoding/json` refuses (`unsupported value`). -/
def unsupportedFloat (bits : Nat) : Bool :=
  (bits / 2 ^ 52) % 2048 == 2047

/-- Whether an argument mapping holds a NaN or an infinity among its values. -/
def hasUnsupportedFloat (args : GoMap) : Bool :=
  args.any (fun kv =>
    match kv.2 with
    | GoAny.float64 bits => unsupportedFloat bits
    | _ => false)

/-- A sample `json.Marshal`: it fails, as `encoding/json` does, on a message
with a function call that holds a NaN or an infinity among its arguments, and
returns the two bytes of an empty JSON object on every other message. -/
def marshalSample (m : LiveServerMessage) : Option (List Byte) :=
  if (match m.ToolCall with
      | none => false
      | some tc => tc.FunctionCalls.any (fun entry =>
          match entry with
          | none => false
          | some fc => hasUnsupportedFloat fc.Args)) then none
  else some [123, 125]

/-- A weather call for Tokyo whose arguments also hold a NaN. -/
def nanCall : FunctionCall :=
  { ID := "f1", Name := "get_current_weather",
    Args := [("location", GoAny.str "Tokyo"), ("lat", GoAny.float64 0x7FF8000000000000)] }

/-! ## Lemmas on the goroutine -/

theorem toolCallActions_panics (entries : List (Option FunctionCall)) (oks : List Bool) :
    (toolCallActions entries oks).2 = entries.any (fun fc => fc.isNone) := by
  induction entries generalizing oks with
  | nil => rfl
  | cons e es ih =>
    cases e with
    | none => simp [toolCallActions]
    | some fc => simp [toolCallActions, ih]

theorem any_isNone_eq (α : Type) (l : List (Option α)) :
    l.any (fun x => x.isNone) = !l.all (fun x => x.isSome) := by
  induction l with
  | nil => rfl
  | cons x xs ih => cases x <;> simp [ih]

theorem panics_eq_not_nilFree (m : LiveServerMessage) (sendOks : List Bool) :
    ((toolCallBlock m sendOks).2 || modelTurnPanics m) = !m.nilFree := by
  have h1 : (toolCallBlock m sendOks).2 =
      !(match m.ToolCall with
        | none => true
        | some tc => tc.FunctionCalls.all (fun fc => fc.isSome)) := by
    unfold toolCallBlock
    cases m.ToolCall with
    | none => rfl
    | some tc => simp only [toolCallActions_panics, any_isNone_eq]
  have h2 : modelTurnPanics m =
      !(match m.ServerContent with
        | none => true
        | some sc =>
          match sc.ModelTurn with
          | none => true
          | some turn => turn.Parts.all (fun part => part.isSome)) := by
    unfold modelTurnPanics
    cases m.ServerContent with
    | none => rfl
    | some sc =>
      dsimp only
      cases sc.ModelTurn with
      | none => rfl
      | some turn => simp only [any_isNone_eq]
  rw [h1, h2]
  unfold LiveServerMessage.nilFree
  simp only [Bool.not_and]

theorem toolCallActions_sends (entries : List (Option FunctionCall)) (oks : List Bool) :
    ∀ a ∈ (toolCallActions entries oks).1, ∃ input ok, a = Action.sendToolResponse input ok := by
  induction entries generalizing oks with
  | nil => intro a h; simp [toolCallActions] at h
  | cons e es ih =>
    cases e with
    | none => intro a h; simp [toolCallActions] at h
    | some fc =>
      intro a h
      simp only [toolCallActions, List.mem_cons] at h
      rcases h with h | h
      · exact ⟨_, _, h⟩
      · exact ih _ a h

theorem toolCallBlock_sends (m : LiveServerMessage) (sendOks : List Bool) :
    ∀ a ∈ (toolCallBlock m sendOks).1, ∃ input ok, a = Action.sendToolResponse input ok := by
  unfold toolCallBlock
  cases m.ToolCall with
  | none => intro a h; simp at h
  | some tc => exact toolCallActions_sends _ _

theorem written_toolCallBlock (m : LiveServerMessage) (sendOks : List Bool) :
    (toolCallBlock m sendOks).1.filterMap Action.written = [] := by
  apply List.filterMap_eq_nil_iff.mpr
  intro a ha
  obtain ⟨input, ok, rfl⟩ := toolCallBlock_sends m sendOks a ha
  rfl

theorem closeDone_not_mem_toolCallBlock (m : LiveServerMessage) (sendOks : List Bool) :
    Action.closeDone ∉ (toolCallBlock m sendOks).1 := by
  intro h
  obtain ⟨input, ok, hh⟩ := toolCallBlock_sends m sendOks _ h
  cases hh

theorem count_closeDone_toolCallBlock (m : LiveServerMessage) (sendOks : List Bool) :
    (toolCallBlock m sendOks).1.count Action.closeDone = 0 :=
  List.count_eq_zero_of_not_mem (closeDone_not_mem_toolCallBlock m sendOks)

theorem toolCallActions_calls (calls : List FunctionCall) (oks : List Bool) :
    (toolCallActions (calls.map some) oks).1.filterMap Action.toolSent =
        calls.map toolResponseInput ∧
    (toolCallActions (calls.map some) oks).1.length = calls.length := by
  induction calls generalizing oks with
  | nil => exact ⟨rfl, rfl⟩
  | cons fc fcs ih =>
    obtain ⟨h1, h2⟩ := ih oks.tail
    constructor
    · simp [toolCallActions, Action.toolSent, h1]
    · simp [toolCallActions, h2]

theorem outboundLoop_msg_panic (marshal : LiveServerMessage → Option (List Byte))
    (m : LiveServerMessage) (sendOks : List Bool) (writeOk : Bool) (rest : List RecvStep)
    (hnil : m.nilFree = false) :
    outboundLoop marshal (RecvStep.msg m sendOks writeOk :: rest) =
      (Action.receive m :: (toolCallBlock m sendOks).1 ++ [Action.closeDone, Action.crash],
        OutStatus.panicked) := by
  simp [outboundLoop, panics_eq_not_nilFree, hnil]

theorem outboundLoop_msg_none (marshal : LiveServerMessage → Option (List Byte))
    (m : LiveServerMessage) (sendOks : List Bool) (writeOk : Bool) (rest : List RecvStep)
    (hnil : m.nilFree = true) (h : marshal m = none) :
    outboundLoop marshal (RecvStep.msg m sendOks writeOk :: rest) =
      (Action.receive m :: (toolCallBlock m sendOks).1 ++
          (outboundLoop marshal rest).1, (outboundLoop marshal rest).2) := by
  simp [outboundLoop, panics_eq_not_nilFree, hnil, h]

theorem outboundLoop_msg_written (marshal : LiveServerMessage → Option (List Byte))
    (m : LiveServerMessage) (sendOks : List Bool) (rest : List RecvStep) (b : List Byte)
    (hnil : m.nilFree = true) (h : marshal m = some b) :
    outboundLoop marshal (RecvStep.msg m sendOks true :: rest) =
      (Action.receive m :: (toolCallBlock m sendOks).1 ++
          Action.wsWrite b true :: (outboundLoop marshal rest).1,
        (outboundLoop marshal rest).2) := by
  simp [outboundLoop, panics_eq_not_nilFree, hnil, h]

theorem outboundLoop_msg_failed (marshal : LiveServerMessage → Option (List Byte))
    (m : LiveServerMessage) (sendOks : List Bool) (rest : List RecvStep) (b : List Byte)
    (hnil : m.nilFree = true) (h : marshal m = some b) :
    outboundLoop marshal (RecvStep.msg m sendOks false :: rest) =
      (Action.receive m :: (toolCallBlock m sendOks).1 ++
          [Action.wsWrite b false, Action.closeDone], OutStatus.exited) := by
  simp [outboundLoop, panics_eq_not_nilFree, hnil, h]

theorem outboundLoop_append (marshal : LiveServerMessage → Option (List Byte))
    (before rest : List RecvStep) (h : (outboundLoop marshal before).2 = OutStatus.blocked) :
    outboundLoop marshal (before ++ rest) =
      ((outboundLoop marshal before).1 ++ (outboundLoop marshal rest).1,
        (outboundLoop marshal rest).2) := by
  induction before with
  | nil => simp [outboundLoop]
  | cons s ss ih =>
    cases s with
    | err text => simp [outboundLoop] at h
    | msg m sendOks writeOk =>
      cases hnil : m.nilFree with
      | false => rw [outboundLoop_msg_panic marshal m sendOks writeOk ss hnil] at h; simp at h
      | true =>
        cases hm : marshal m with
        | none =>
          rw [outboundLoop_msg_none marshal m sendOks writeOk ss hnil hm] at h
          simp only [List.cons_append]
          rw [outboundLoop_msg_none marshal m sendOks writeOk _ hnil hm,
            outboundLoop_msg_none marshal m sendOks writeOk ss hnil hm, ih h]
          simp
        | some b =>
          cases writeOk with
          | false =>
            rw [outboundLoop_msg_failed marshal m sendOks ss b hnil hm] at h; simp at h
          | true =>
            rw [outboundLoop_msg_written marshal m sendOks ss b hnil hm] at h
            simp only [List.cons_append]
            rw [outboundLoop_msg_written marshal m sendOks _ b hnil hm,
              outboundLoop_msg_written marshal m sendOks ss b hnil hm, ih h]
            simp

theorem outboundLoop_append_done (marshal : LiveServerMessage → Option (List Byte))
    (before rest : List RecvStep) (h : (outboundLoop marshal before).2 ≠ OutStatus.blocked) :
    outboundLoop marshal (before ++ rest) = outboundLoop marshal before := by
  induction before with
  | nil => simp [outboundLoop] at h
  | cons s ss ih =>
    cases s with
    | err text => simp [outboundLoop]
    | msg m sendOks writeOk =>
      cases hnil : m.nilFree with
      | false =>
        simp only [List.cons_append]
        rw [outboundLoop_msg_panic marshal m sendOks writeOk _ hnil,
          outboundLoop_msg_panic marshal m sendOks writeOk ss hnil]
      | true =>
        cases hm : marshal m with
        | none =>
          rw [outboundLoop_msg_none marshal m sendOks writeOk ss hnil hm] at h
          simp only [List.cons_append]
          rw [outboundLoop_msg_none marshal m sendOks writeOk _ hnil hm,
            outboundLoop_msg_none marshal m sendOks writeOk ss hnil hm, ih h]
        | some b =>
          cases writeOk with
          | false =>
            simp only [List.cons_append]
            rw [outboundLoop_msg_failed marshal m sendOks _ b hnil hm,
              outboundLoop_msg_failed marshal m sendOks ss b hnil hm]
          | true =>
            rw [outboundLoop_msg_written marshal m sendOks ss b hnil hm] at h
            simp only [List.cons_append]
            rw [outboundLoop_msg_written marshal m sendOks _ b hnil hm,
              outboundLoop_msg_written marshal m sendOks ss b hnil hm, ih h]

theorem toolResult_unknown (fc : FunctionCall) (h : fc.Name ≠ "get_current_weather") :
    toolResult fc = [("error", GoAny.str "Unknown function")] := by
  simp [toolResult, h]

/-! ## The claims on the tools and on the goroutine -/

/-- C2: `HandleGetCurrentWeather` is a total function of the argument mapping.
Its result has the key `error` exactly when `args` holds no string under
`location` (so in particular when the key is absent or holds `nil`), and the
result is then the one-entry mapping with the fixed message; when
`args["location"]` is a string `s`, the empty one included, the result is the
mock report with `location` set to `s`. -/
theorem HandleGetCurrentWeather_total (args : GoMap) :
    ((tools.HandleGetCurrentWeather args).hasKey "error" = true ↔
        ∀ s, List.lookup "location" args ≠ some (GoAny.str s)) ∧
    ((∀ s, List.lookup "location" args ≠ some (GoAny.str s)) →
        tools.HandleGetCurrentWeather args =
          [("error", GoAny.str "location argument is required and must be a string")]) ∧
    (∀ s, List.lookup "location" args = some (GoAny.str s) →
        tools.HandleGetCurrentWeather args =
          [("weather", GoAny.str "Sunny"), ("temperature", GoAny.int 25),
           ("location", GoAny.str s),
           ("note", GoAny.str "This is mock data from the backend tool")]) ∧
    ((List.lookup "location" args = none ∨ List.lookup "location" args = some GoAny.nil) →
        tools.HandleGetCurrentWeather args =
          [("error", GoAny.str "location argument is required and must be a string")]) := by
  have key : ∀ v, List.lookup "location" args = v →
      tools.HandleGetCurrentWeather args =
        match (v.getD GoAny.nil).assertString with
        | none => [("error", GoAny.str "location argument is required and must be a string")]
        | some location =>
          [("weather", GoAny.str "Sunny"), ("temperature", GoAny.int 25),
           ("location", GoAny.str location),
           ("note", GoAny.str "This is mock data from the backend tool")] := by
    intro v hv
    simp [tools.HandleGetCurrentWeather, GoMap.index, hv]
  refine ⟨?_, ?_, ?_, ?_⟩
  · rw [key _ rfl]
    cases h : List.lookup "location" args with
    | none => simp [GoAny.assertString, GoMap.hasKey, List.lookup]
    | some v =>
      cases v <;> simp [GoAny.assertString, GoMap.hasKey, List.lookup]
  · intro h
    rw [key _ rfl]
    cases hl : List.lookup "location" args with
    | none => simp [GoAny.assertString]
    | some v =>
      cases v <;> simp [GoAny.assertString]
      exact absurd hl (h _)
  · intro s h
    rw [key _ h]
    simp [GoAny.assertString]
  · intro h
    rcases h with h | h <;> rw [key _ h] <;> simp [GoAny.assertString]

/-- Witness of C2: the empty location string is a string, the missing key is
not. -/
theorem HandleGetCurrentWeather_total_witness :
    tools.HandleGetCurrentWeather [("location", GoAny.str "")] =
        [("weather", GoAny.str "Sunny"), ("temperature", GoAny.int 25),
         ("location", GoAny.str ""),
         ("note", GoAny.str "This is mock data from the backend tool")] ∧
    tools.HandleGetCurrentWeather [("query", GoAny.str "Tokyo")] =
        [("error", GoAny.str "location argument is required and must be a string")] :=
  ⟨(HandleGetCurrentWeather_total [("location", GoAny.str "")]).2.2.1 "" (by decide),
   (HandleGetCurrentWeather_total [("query", GoAny.str "Tokyo")]).2.2.2 (Or.inl (by decide))⟩

/-- C1, at the failing input: the message whose function calls are a nil
entry followed by a call of the unregistered name `zzz`.  The dispatch of
that call is `"error": "Unknown function"`, but the loop panics at the nil
entry (`fc.Name`, line 70) before it gets to the call: no `SendToolResponse`
is issued, the message is not forwarded, and the goroutine ends in the
panic, after its deferred `close(done)`. -/
theorem unknown_call_behind_nil_entry (marshal : LiveServerMessage → Option (List Byte))
    (sendOks : List Bool) (writeOk : Bool) (rest : List RecvStep) :
    toolResult { ID := "n2", Name := "zzz", Args := [] } =
      [("error", GoAny.str "Unknown function")] ∧
    outboundLoop marshal
        (RecvStep.msg (toolCallMsg [none, some { ID := "n2", Name := "zzz", Args := [] }])
          sendOks writeOk :: rest) =
      ([Action.receive (toolCallMsg [none, some { ID := "n2", Name := "zzz", Args := [] }]),
        Action.closeDone, Action.crash], OutStatus.panicked) ∧
    toolResponses (outboundLoop marshal
        (RecvStep.msg (toolCallMsg [none, some { ID := "n2", Name := "zzz", Args := [] }])
          sendOks writeOk :: rest)).1 = [] ∧
    clientWrites (outboundLoop marshal
        (RecvStep.msg (toolCallMsg [none, some { ID := "n2", Name := "zzz", Args := [] }])
          sendOks writeOk :: rest)).1 = [] := by
  have h : outboundLoop marshal
      (RecvStep.msg (toolCallMsg [none, some { ID := "n2", Name := "zzz", Args := [] }])
        sendOks writeOk :: rest) =
      ([Action.receive (toolCallMsg [none, some { ID := "n2", Name := "zzz", Args := [] }]),
        Action.closeDone, Action.crash], OutStatus.panicked) := by
    rw [outboundLoop_msg_panic marshal _ sendOks writeOk rest (by decide)]
    rfl
  refine ⟨toolResult_unknown _ (by decide), h, ?_, ?_⟩
  · rw [h]; rfl
  · rw [h]; rfl

/-- C3, at the failing input: the message whose function calls are the
weather call `f1` for Tokyo, a nil entry, and the call `f2` of an
unregistered name.  The loop answers `f1` and panics at the nil entry
(`fc.Name`, line 70): one `SendToolResponse` is issued, not two, `f2` is
never answered, and the goroutine ends in the panic. -/
theorem two_calls_around_nil_entry (marshal : LiveServerMessage → Option (List Byte))
    (sendOks : List Bool) (writeOk : Bool) (rest : List RecvStep) :
    outboundLoop marshal
        (RecvStep.msg
          (toolCallMsg
            [some { ID := "f1", Name := "get_current_weather",
                    Args := [("location", GoAny.str "Tokyo")] },
             none,
             some { ID := "f2", Name := "search_zero_trust_docs", Args := [] }])
          sendOks writeOk :: rest) =
      ([Action.receive
          (toolCallMsg
            [some { ID := "f1", Name := "get_current_weather",
                    Args := [("location", GoAny.str "Tokyo")] },
             none,
             some { ID := "f2", Name := "search_zero_trust_docs", Args := [] }]),
        Action.sendToolResponse
          { FunctionResponses := [{ Name := "get_current_weather", ID := "f1", Response := [
              ("weather", GoAny.str "Sunny"), ("temperature", GoAny.int 25),
              ("location", GoAny.str "Tokyo"),
              ("note", GoAny.str "This is mock data from the backend tool")] }] }
          (sendOks.headD true),
        Action.closeDone, Action.crash], OutStatus.panicked) := by
  rw [outboundLoop_msg_panic marshal _ sendOks writeOk rest (by decide)]
  rfl

/-- C4, at the failing input: a received message with a nil entry among its
function calls, or with a nil entry among the parts of its model turn.  The
loop panics (lines 70 and 101) before `json.Marshal` and `ws.Write`: the
message is received and no client write is attempted for it, whatever
`json.Marshal` would return. -/
theorem received_event_with_nil_entry (marshal : LiveServerMessage → Option (List Byte))
    (sendOks : List Bool) (writeOk : Bool) (rest : List RecvStep) :
    outboundLoop marshal (RecvStep.msg (toolCallMsg [none]) sendOks writeOk :: rest) =
      ([Action.receive (toolCallMsg [none]), Action.closeDone, Action.crash],
        OutStatus.panicked) ∧
    receivedMsgs (outboundLoop marshal
        (RecvStep.msg (toolCallMsg [none]) sendOks writeOk :: rest)).1 =
      [toolCallMsg [none]] ∧
    clientWrites (outboundLoop marshal
        (RecvStep.msg (toolCallMsg [none]) sendOks writeOk :: rest)).1 = [] ∧
    outboundLoop marshal
        (RecvStep.msg
          { ToolCall := none,
            ServerContent := some { ModelTurn := some { Parts := [none] } },
            VoiceActivity := none, VoiceActivityDetectionSignal := none }
          sendOks writeOk :: rest) =
      ([Action.receive
          { ToolCall := none,
            ServerContent := some { ModelTurn := some { Parts := [none] } },
            VoiceActivity := none, VoiceActivityDetectionSignal := none },
        Action.closeDone, Action.crash], OutStatus.panicked) := by
  have h : outboundLoop marshal (RecvStep.msg (toolCallMsg [none]) sendOks writeOk :: rest) =
      ([Action.receive (toolCallMsg [none]), Action.closeDone, Action.crash],
        OutStatus.panicked) := by
    rw [outboundLoop_msg_panic marshal _ sendOks writeOk rest (by decide)]
    rfl
  refine ⟨h, ?_, ?_, ?_⟩
  · rw [h]; rfl
  · rw [h]; rfl
  · rw [outboundLoop_msg_panic marshal _ sendOks writeOk rest (by decide)]
    rfl

/-- C7: once a client write fails the goroutine is over.  When the loop has
run through the steps `before` and the next message (one that holds no nil
entry, so that the iteration gets to its `ws.Write`) is serialised but its
write fails, the trace ends with that failed write followed by the
`close(done)`, the goroutine has exited, and whatever the upstream side
holds next (`rest`) is never received, dispatched, answered or written. -/
theorem write_failure_is_fatal (marshal : LiveServerMessage → Option (List Byte))
    (before rest : List RecvStep) (m : LiveServerMessage) (sendOks : List Bool)
    (b : List Byte)
    (hrun : (outboundLoop marshal before).2 = OutStatus.blocked)
    (hnil : m.nilFree = true)
    (hm : marshal m = some b) :
    outboundLoop marshal (before ++ RecvStep.msg m sendOks false :: rest) =
      ((outboundLoop marshal before).1 ++
          (Action.receive m :: (toolCallBlock m sendOks).1 ++
            [Action.wsWrite b false, Action.closeDone]),
        OutStatus.exited) ∧
    outboundLoop marshal (before ++ RecvStep.msg m sendOks false :: rest) =
      outboundLoop marshal (before ++ [RecvStep.msg m sendOks false]) ∧
    (outboundLoop marshal (before ++ RecvStep.msg m sendOks false :: rest)).1.getLast? =
      some Action.closeDone := by
  have h1 : ∀ tl, outboundLoop marshal (before ++ RecvStep.msg m sendOks false :: tl) =
      ((outboundLoop marshal before).1 ++
          (Action.receive m :: (toolCallBlock m sendOks).1 ++
            [Action.wsWrite b false, Action.closeDone]),
        OutStatus.exited) := by
    intro tl
    rw [outboundLoop_append marshal before _ hrun,
      outboundLoop_msg_failed marshal m sendOks tl b hnil hm]
  refine ⟨h1 rest, ?_, ?_⟩
  · rw [h1 rest, h1 []]
  · rw [h1 rest]
    have hsplit : (outboundLoop marshal before).1 ++
        (Action.receive m :: (toolCallBlock m sendOks).1 ++
          [Action.wsWrite b false, Action.closeDone]) =
        ((outboundLoop marshal before).1 ++
          (Action.receive m :: (toolCallBlock m sendOks).1 ++
            [Action.wsWrite b false])) ++ [Action.closeDone] := by
      simp
    show List.getLast? _ = _
    rw [hsplit, List.getLast?_concat]

/-- Witness of C7: the first message is written, the write of the second,
which carries a call of an unregistered name, fails, a third message is
waiting. -/
theorem write_failure_is_fatal_witness :
    outboundLoop marshalSample
        ([RecvStep.msg (voiceMsg none) [] true] ++
          RecvStep.msg (toolCallMsg [some { ID := "c1", Name := "zzz", Args := [] }])
              [true] false ::
            [RecvStep.msg (voiceMsg (some "y")) [] true]) =
      ([Action.receive (voiceMsg none), Action.wsWrite [123, 125] true,
        Action.receive (toolCallMsg [some { ID := "c1", Name := "zzz", Args := [] }]),
        Action.sendToolResponse
          { FunctionResponses := [{ Name := "zzz", ID := "c1", Response := [
              ("error", GoAny.str "Unknown function")] }] } true,
        Action.wsWrite [123, 125] false,
        Action.closeDone], OutStatus.exited) :=
  ((write_failure_is_fatal marshalSample [RecvStep.msg (voiceMsg none) [] true]
    [RecvStep.msg (voiceMsg (some "y")) [] true]
    (toolCallMsg [some { ID := "c1", Name := "zzz", Args := [] }]) [true] [123, 125]
    (by decide) (by decide) (by decide)).1).trans (by decide)

/-- C8: a serialisation failure drops one event and nothing more.  When the
loop has run through the steps `before` and `json.Marshal` fails on the next
message, whose function calls are `calls`, the actions for that message are
the `Receive` and one `SendToolResponse` per call, in call order, with the
name, the id and the dispatch result of the call: the tool calls are
answered upstream, no `ws.Write` and no `close(done)` is made, and the loop
goes on with the next `Receive`, the rest of the run being the run on the
remaining steps. -/
theorem marshal_failure_is_not_fatal (marshal : LiveServerMessage → Option (List Byte))
    (before rest : List RecvStep) (m : LiveServerMessage) (calls : List FunctionCall)
    (sendOks : List Bool) (writeOk : Bool)
    (hrun : (outboundLoop marshal before).2 = OutStatus.blocked)
    (hcalls : m.ToolCall = some { FunctionCalls := calls.map some } ∨
      (m.ToolCall = none ∧ calls = []))
    (hparts : modelTurnPanics m = false)
    (hm : marshal m = none) :
    ∃ answered : List Action,
      outboundLoop marshal (before ++ RecvStep.msg m sendOks writeOk :: rest) =
        ((outboundLoop marshal before).1 ++ (Action.receive m :: answered) ++
            (outboundLoop marshal rest).1,
          (outboundLoop marshal rest).2) ∧
      toolResponses answered =
        calls.map (fun c =>
          { FunctionResponses :=
              [{ Name := c.Name, ID := c.ID, Response := toolResult c }] }) ∧
      answered.length = calls.length ∧
      (∀ a ∈ answered, ∃ input ok, a = Action.sendToolResponse input ok) ∧
      clientWrites answered = [] ∧
      Action.closeDone ∉ answered := by
  have hblock : (toolCallBlock m sendOks).2 = false ∧
      toolResponses (toolCallBlock m sendOks).1 = calls.map toolResponseInput ∧
      (toolCallBlock m sendOks).1.length = calls.length := by
    rcases hcalls with h | ⟨h, hc⟩
    · unfold toolCallBlock
      rw [h]
      refine ⟨?_, (toolCallActions_calls calls sendOks).1, (toolCallActions_calls calls sendOks).2⟩
      rw [toolCallActions_panics]
      simp
    · unfold toolCallBlock
      rw [h, hc]
      exact ⟨rfl, rfl, rfl⟩
  have hnil : m.nilFree = true := by
    have := panics_eq_not_nilFree m sendOks
    rw [hblock.1, hparts] at this
    simpa using this.symm
  refine ⟨(toolCallBlock m sendOks).1, ?_, hblock.2.1, hblock.2.2,
    toolCallBlock_sends m sendOks, written_toolCallBlock m sendOks,
    closeDone_not_mem_toolCallBlock m sendOks⟩
  rw [outboundLoop_append marshal before _ hrun,
    outboundLoop_msg_none marshal m sendOks writeOk rest hnil hm]
  simp

/-- Witness of C8: `json.Marshal` fails on the first message, which carries a
weather call with a NaN among its arguments; the call is answered, nothing
is written for the message, and the second message is received and written. -/
theorem marshal_failure_is_not_fatal_witness :
    outboundLoop marshalSample
        ([] ++ RecvStep.msg (toolCallMsg [some nanCall]) [] true ::
          [RecvStep.msg (voiceMsg none) [] true]) =
      ([Action.receive (toolCallMsg [some nanCall]),
        Action.sendToolResponse
          { FunctionResponses := [{ Name := "get_current_weather", ID := "f1", Response := [
              ("weather", GoAny.str "Sunny"), ("temperature", GoAny.int 25),
              ("location", GoAny.str "Tokyo"),
              ("note", GoAny.str "This is mock data from the backend tool")] }] } true,
        Action.receive (voiceMsg none),
        Action.wsWrite [123, 125] true], OutStatus.blocked) ∧
    ∃ answered : List Action,
      outboundLoop marshalSample
          ([] ++ RecvStep.msg (toolCallMsg [some nanCall]) [] true ::
            [RecvStep.msg (voiceMsg none) [] true]) =
        ((outboundLoop marshalSample []).1 ++
            (Action.receive (toolCallMsg [some nanCall]) :: answered) ++
            (outboundLoop marshalSample [RecvStep.msg (voiceMsg none) [] true]).1,
          (outboundLoop marshalSample [RecvStep.msg (voiceMsg none) [] true]).2) ∧
      toolResponses answered =
        [nanCall].map (fun c =>
          { FunctionResponses :=
              [{ Name := c.Name, ID := c.ID, Response := toolResult c }] }) ∧
      answered.length = [nanCall].length ∧
      (∀ a ∈ answered, ∃ input ok, a = Action.sendToolResponse input ok) ∧
      clientWrites answered = [] ∧
      Action.closeDone ∉ answered :=
  ⟨by decide,
   marshal_failure_is_not_fatal marshalSample []
    [RecvStep.msg (voiceMsg none) [] true] (toolCallMsg [some nanCall]) [nanCall] [] true
    (by decide) (Or.inl rfl) (by decide) (by decide)⟩

/-- C9: when `h.Client.Connect` fails, `Handle` returns at once: its whole
trace is the failed connect followed by the deferred `ws.Close()`.  The
goroutine is never started, so nothing is received from upstream, no tool
response is sent and nothing is written to the client; the main loop is
never entered, so the client is never read and no audio is sent; this is so
in every global trace of the run. -/
theorem connect_failure_closes (marshal : LiveServerMessage → Option (List Byte))
    (upstream : List RecvStep) (client : List ReadStep) :
    Handle marshal false upstream client =
      { main := [Action.connect model [tools.WeatherTool] false, Action.wsClose],
        goroutine := [],
        returned := true,
        started := false,
        outStatus := OutStatus.blocked } ∧
    readChunks (Handle marshal false upstream client).main = [] ∧
    sentInputs (Handle marshal false upstream client).main = [] ∧
    receivedMsgs (Handle marshal false upstream client).goroutine = [] ∧
    clientWrites (Handle marshal false upstream client).goroutine = [] ∧
    ∀ t, isSessionTrace (Handle marshal false upstream client) t →
      t = [Action.connect model [tools.WeatherTool] false, Action.wsClose] := by
  refine ⟨rfl, rfl, rfl, rfl, rfl, ?_⟩
  intro t ht
  obtain ⟨hmain, hgo, -, -⟩ := ht
  have hnone : ∀ a ∈ t, a.isGoroutine = false := by
    intro a ha
    have := List.filter_eq_nil_iff.mp hgo a ha
    simpa using this
  have hall : t.filter (fun a => !a.isGoroutine) = t := by
    apply List.filter_eq_self.mpr
    intro a ha
    simp [hnone a ha]
  rw [← hall, hmain]
  rfl

/-- Witness of C9: the connect fails although both sides have answers
waiting; the only global trace is the failed connect and the `ws.Close()`. -/
theorem connect_failure_closes_witness :
    isSessionTrace (Handle marshalSample false [RecvStep.err "EOF"] [ReadStep.err true])
        [Action.connect model [tools.WeatherTool] false, Action.wsClose] ∧
    [Action.connect model [tools.WeatherTool] false, Action.wsClose] =
      [Action.connect model [tools.WeatherTool] false, Action.wsClose] :=
  ⟨by decide,
   (connect_failure_closes marshalSample [RecvStep.err "EOF"] [ReadStep.err true]).2.2.2.2.2
    [Action.connect model [tools.WeatherTool] false, Action.wsClose] (by decide)⟩

/-! ## Lemmas on the main loop -/

theorem wsRead_snd (buf incoming : List Byte) :
    (wsRead buf incoming).2 = incoming.take buf.length := rfl

theorem wsRead_fst_length (buf incoming : List Byte) :
    (wsRead buf incoming).1.length = buf.length := by
  simp only [wsRead, List.length_append, List.length_take, List.length_drop]
  omega

theorem wsRead_fst_take (buf incoming : List Byte) :
    (wsRead buf incoming).1.take (wsRead buf incoming).2.length = (wsRead buf incoming).2 := by
  simp [wsRead]

theorem sent_eq_audioActions (buf incoming : List Byte) (ok : Bool) :
    (if (wsRead buf incoming).2.length > 0 then
        [Action.sendRealtimeInput
          (realtimeInput (wsRead buf incoming).1 (wsRead buf incoming).2.length) ok]
      else []) = audioActions (incoming.take buf.length) ok := by
  unfold realtimeInput
  rw [wsRead_fst_take, wsRead_snd]
  unfold audioActions audioFor
  split <;> simp_all

theorem inboundLoop_length_only (buf₁ buf₂ : List Byte) (script : List ReadStep)
    (h : buf₁.length = buf₂.length) : inboundLoop buf₁ script = inboundLoop buf₂ script := by
  induction script generalizing buf₁ buf₂ with
  | nil => rfl
  | cons s ss ih =>
    cases s with
    | err eof => rfl
    | data incoming sendOk doneClosed =>
      have hlen : (wsRead buf₁ incoming).1.length = (wsRead buf₂ incoming).1.length := by
        rw [wsRead_fst_length, wsRead_fst_length, h]
      simp only [inboundLoop]
      rw [sent_eq_audioActions, sent_eq_audioActions, ih _ _ hlen]
      simp only [wsRead_snd, h]

theorem inboundLoop_data (buf incoming : List Byte) (sendOk doneClosed : Bool)
    (rest : List ReadStep) :
    inboundLoop buf (ReadStep.data incoming sendOk doneClosed :: rest) =
      if 0 < (incoming.take buf.length).length ∧ sendOk = false then
        (Action.wsRead (incoming.take buf.length) ::
          audioActions (incoming.take buf.length) sendOk, InStatus.broke)
      else if doneClosed then
        (Action.wsRead (incoming.take buf.length) ::
          audioActions (incoming.take buf.length) sendOk ++ [Action.pollDone true],
          InStatus.returned)
      else
        (Action.wsRead (incoming.take buf.length) ::
          audioActions (incoming.take buf.length) sendOk ++
            Action.pollDone false :: (inboundLoop buf rest).1,
          (inboundLoop buf rest).2) := by
  simp only [inboundLoop]
  rw [sent_eq_audioActions,
    inboundLoop_length_only _ buf rest (wsRead_fst_length buf incoming)]
  simp only [wsRead_snd, gt_iff_lt]

theorem inboundLoop_append (buf : List Byte) (before rest : List ReadStep)
    (h : (inboundLoop buf before).2 = InStatus.blocked) :
    inboundLoop buf (before ++ rest) =
      ((inboundLoop buf before).1 ++ (inboundLoop buf rest).1, (inboundLoop buf rest).2) := by
  induction before with
  | nil => simp [inboundLoop]
  | cons s ss ih =>
    cases s with
    | err eof => simp [inboundLoop] at h
    | data incoming sendOk doneClosed =>
      rw [inboundLoop_data] at h
      simp only [List.cons_append]
      rw [inboundLoop_data, inboundLoop_data]
      split at h
      · simp at h
      · split at h
        · simp at h
        · rename_i h1 h2
          rw [if_neg h1, if_neg h2, if_neg h1, if_neg h2, ih h]
          simp

theorem realtimeSent_audioActions (got : List Byte) (ok : Bool) :
    (audioActions got ok).filterMap Action.realtimeSent = (audioFor got).toList := by
  unfold audioActions
  cases audioFor got <;> simp [Action.realtimeSent]

theorem chunkRead_audioActions (got : List Byte) (ok : Bool) :
    (audioActions got ok).filterMap Action.chunkRead = [] := by
  unfold audioActions
  cases audioFor got <;> simp [Action.chunkRead]

theorem sentInputs_inboundLoop (buf : List Byte) (script : List ReadStep) :
    sentInputs (inboundLoop buf script).1 =
      (readChunks (inboundLoop buf script).1).filterMap audioFor := by
  induction script with
  | nil => rfl
  | cons s ss ih =>
    cases s with
    | err eof => simp [inboundLoop, sentInputs, readChunks, Action.realtimeSent, Action.chunkRead]
    | data incoming sendOk doneClosed =>
      unfold sentInputs readChunks at ih ⊢
      rw [inboundLoop_data]
      split
      · cases ha : audioFor (List.take buf.length incoming) <;>
          simp [List.filterMap_append, realtimeSent_audioActions, chunkRead_audioActions,
            Action.realtimeSent, Action.chunkRead, List.filterMap_cons, ha]
      · split
        · cases ha : audioFor (List.take buf.length incoming) <;>
            simp [List.filterMap_append, realtimeSent_audioActions, chunkRead_audioActions,
              Action.realtimeSent, Action.chunkRead, List.filterMap_cons, ha]
        · cases ha : audioFor (List.take buf.length incoming) <;>
            simp [List.filterMap_append, realtimeSent_audioActions, chunkRead_audioActions,
              Action.realtimeSent, Action.chunkRead, List.filterMap_cons, ha, ih]

theorem readChunks_inboundLoop_length (buf : List Byte) (script : List ReadStep) :
    ∀ got ∈ readChunks (inboundLoop buf script).1, got.length ≤ buf.length := by
  induction script with
  | nil => intro got h; simp [inboundLoop, readChunks] at h
  | cons s ss ih =>
    cases s with
    | err eof => intro got h; simp [inboundLoop, readChunks, Action.chunkRead] at h
    | data incoming sendOk doneClosed =>
      unfold readChunks at ih ⊢
      have hlen : (List.take buf.length incoming).length ≤ buf.length := by
        simp [List.length_take]
      rw [inboundLoop_data]
      intro got h
      split at h
      · simp [List.filterMap_append, chunkRead_audioActions, Action.chunkRead] at h
        rw [h]; exact hlen
      · split at h
        · simp [List.filterMap_append, chunkRead_audioActions, Action.chunkRead] at h
          rw [h]; exact hlen
        · simp [List.filterMap_append, chunkRead_audioActions, Action.chunkRead] at h
          rcases h with h | h
          · rw [h]; exact hlen
          · exact ih got (by simpa using h)

theorem sentInputs_main (marshal : LiveServerMessage → Option (List Byte))
    (upstream : List RecvStep) (client : List ReadStep) :
    sentInputs (Handle marshal true upstream client).main =
      sentInputs (inboundLoop (List.replicate 4096 0) client).1 := by
  simp only [Handle, ↓reduceIte]
  generalize List.replicate 4096 0 = buf
  simp only [sentInputs, deferredCloses]
  split <;> simp [List.filterMap_append, Action.realtimeSent]

theorem readChunks_main (marshal : LiveServerMessage → Option (List Byte))
    (upstream : List RecvStep) (client : List ReadStep) :
    readChunks (Handle marshal true upstream client).main =
      readChunks (inboundLoop (List.replicate 4096 0) client).1 := by
  simp only [Handle, ↓reduceIte]
  generalize List.replicate 4096 0 = buf
  simp only [readChunks, deferredCloses]
  split <;> simp [List.filterMap_append, Action.chunkRead]

theorem audioActions_pos (got : List Byte) (ok : Bool) (h : 0 < got.length) :
    audioActions got ok =
      [Action.sendRealtimeInput
        { Media := some { MIMEType := "audio/pcm;rate=16000", Data := got } } ok] := by
  simp [audioActions, audioFor, h]

theorem inboundLoop_data_sent (buf incoming : List Byte) (rest : List ReadStep)
    (hpos : 0 < incoming.length) (hle : incoming.length ≤ buf.length) :
    inboundLoop buf (ReadStep.data incoming true false :: rest) =
      (Action.wsRead incoming ::
        Action.sendRealtimeInput
          { Media := some { MIMEType := "audio/pcm;rate=16000", Data := incoming } } true ::
        Action.pollDone false :: (inboundLoop buf rest).1, (inboundLoop buf rest).2) := by
  rw [inboundLoop_data, List.take_of_length_le hle, audioActions_pos _ _ hpos]
  simp

/-! ## The claims on the main loop -/

/-- C5: in every run of `Handle` after a successful connect, the
`SendRealtimeInput` calls are, in read order, one per successful `ws.Read`
that returned at least one byte, each carrying exactly the bytes that read
returned with the MIME type `audio/pcm;rate=16000`, and none for a read of
zero bytes; each carries between 1 and 4096 bytes.  When the client delivers
4096, 4096 and 100 bytes and then the end of the stream (the sends succeed
and `done` is not found closed), three calls with these chunks are issued,
the loop is left and `Handle` returns. -/
theorem audio_chunks_forwarded (marshal : LiveServerMessage → Option (List Byte))
    (upstream : List RecvStep) (client : List ReadStep) :
    sentInputs (Handle marshal true upstream client).main =
      (readChunks (Handle marshal true upstream client).main).filterMap (fun got =>
        if 0 < got.length then
          some { Media := some { MIMEType := "audio/pcm;rate=16000", Data := got } }
        else none) ∧
    (∀ input ∈ sentInputs (Handle marshal true upstream client).main,
      ∃ data, input = { Media := some { MIMEType := "audio/pcm;rate=16000", Data := data } } ∧
        1 ≤ data.length ∧ data.length ≤ 4096) ∧
    (∀ b1 b2 b3 : List Byte, b1.length = 4096 → b2.length = 4096 → b3.length = 100 →
      client = [ReadStep.data b1 true false, ReadStep.data b2 true false,
        ReadStep.data b3 true false, ReadStep.err true] →
      sentInputs (Handle marshal true upstream client).main =
        [{ Media := some { MIMEType := "audio/pcm;rate=16000", Data := b1 } },
         { Media := some { MIMEType := "audio/pcm;rate=16000", Data := b2 } },
         { Media := some { MIMEType := "audio/pcm;rate=16000", Data := b3 } }] ∧
      (Handle marshal true upstream client).returned = true ∧
      (Handle marshal true upstream client).main =
        [Action.connect model [tools.WeatherTool] true, Action.go,
         Action.wsRead b1,
         Action.sendRealtimeInput
           { Media := some { MIMEType := "audio/pcm;rate=16000", Data := b1 } } true,
         Action.pollDone false,
         Action.wsRead b2,
         Action.sendRealtimeInput
           { Media := some { MIMEType := "audio/pcm;rate=16000", Data := b2 } } true,
         Action.pollDone false,
         Action.wsRead b3,
         Action.sendRealtimeInput
           { Media := some { MIMEType := "audio/pcm;rate=16000", Data := b3 } } true,
         Action.pollDone false,
         Action.wsReadErr true, Action.sessionClose, Action.wsClose]) := by
  have hsend : sentInputs (Handle marshal true upstream client).main =
      (readChunks (Handle marshal true upstream client).main).filterMap audioFor := by
    rw [sentInputs_main, readChunks_main]
    exact sentInputs_inboundLoop _ _
  refine ⟨hsend, ?_, ?_⟩
  · intro input hin
    rw [hsend, readChunks_main] at hin
    obtain ⟨got, hgot, hfor⟩ := List.mem_filterMap.mp hin
    have hle := readChunks_inboundLoop_length _ _ got hgot
    rw [List.length_replicate] at hle
    unfold audioFor at hfor
    split at hfor
    · refine ⟨got, ?_, by omega, hle⟩
      simpa using hfor.symm
    · simp at hfor
  · intro b1 b2 b3 h1 h2 h3 hclient
    have hmain : (inboundLoop (List.replicate 4096 0) client) =
        ([Action.wsRead b1,
          Action.sendRealtimeInput
            { Media := some { MIMEType := "audio/pcm;rate=16000", Data := b1 } } true,
          Action.pollDone false,
          Action.wsRead b2,
          Action.sendRealtimeInput
            { Media := some { MIMEType := "audio/pcm;rate=16000", Data := b2 } } true,
          Action.pollDone false,
          Action.wsRead b3,
          Action.sendRealtimeInput
            { Media := some { MIMEType := "audio/pcm;rate=16000", Data := b3 } } true,
          Action.pollDone false,
          Action.wsReadErr true], InStatus.broke) := by
      rw [hclient,
        inboundLoop_data_sent _ b1 _ (by omega) (by rw [List.length_replicate]; omega),
        inboundLoop_data_sent _ b2 _ (by omega) (by rw [List.length_replicate]; omega),
        inboundLoop_data_sent _ b3 _ (by omega) (by rw [List.length_replicate]; omega)]
      rfl
    have hrun : Handle marshal true upstream client =
        { main := Action.connect model [tools.WeatherTool] true :: Action.go ::
            ((inboundLoop (List.replicate 4096 0) client).1 ++
              deferredCloses (inboundLoop (List.replicate 4096 0) client).2),
          goroutine := (outboundLoop marshal upstream).1,
          returned := decide ((inboundLoop (List.replicate 4096 0) client).2 ≠ InStatus.blocked),
          started := true,
          outStatus := (outboundLoop marshal upstream).2 } := by
      simp only [Handle, ↓reduceIte]
    rw [hrun, hmain]
    refine ⟨?_, ?_, ?_⟩
    · simp [sentInputs, deferredCloses, Action.realtimeSent]
    · simp
    · simp [deferredCloses]

/-- Witness of C5: chunks of 4096, 4096 and 100 zero bytes, then `io.EOF`. -/
theorem audio_chunks_forwarded_witness :
    sentInputs (Handle marshalSample true []
        [ReadStep.data (List.replicate 4096 0) true false,
         ReadStep.data (List.replicate 4096 0) true false,
         ReadStep.data (List.replicate 100 0) true false, ReadStep.err true]).main =
      [{ Media := some { MIMEType := "audio/pcm;rate=16000", Data := List.replicate 4096 0 } },
       { Media := some { MIMEType := "audio/pcm;rate=16000", Data := List.replicate 4096 0 } },
       { Media := some { MIMEType := "audio/pcm;rate=16000", Data := List.replicate 100 0 } }] :=
  ((audio_chunks_forwarded marshalSample []
      [ReadStep.data (List.replicate 4096 0) true false,
       ReadStep.data (List.replicate 4096 0) true false,
       ReadStep.data (List.replicate 100 0) true false, ReadStep.err true]).2.2
    (List.replicate 4096 0) (List.replicate 4096 0) (List.replicate 100 0)
    (List.length_replicate _ _) (List.length_replicate _ _) (List.length_replicate _ _)
    rfl).1

/-! ## Lemmas on the global traces -/

theorem afterClose_suffix (t : List Action) : afterClose t <:+ t := by
  induction t with
  | nil => exact List.suffix_refl _
  | cons a t ih =>
    cases a <;>
      first
        | exact List.suffix_cons _ _
        | exact ih.trans (List.suffix_cons _ _)

theorem polls_of_doneConsistent_true (t : List Action)
    (h : doneConsistent true t = true) : ∀ b, Action.pollDone b ∈ t → b = true := by
  induction t with
  | nil => intro b hb; simp at hb
  | cons a t ih =>
    intro b hb
    cases a <;> simp [doneConsistent] at h hb <;>
      first
        | exact ih h b hb
        | (rcases hb with hb | hb
           · rw [hb]; exact h.1
           · exact ih h.2 b hb)

theorem doneConsistent_afterClose (closed : Bool) (t : List Action)
    (h : doneConsistent closed t = true) : doneConsistent true (afterClose t) = true := by
  induction t generalizing closed with
  | nil => rfl
  | cons a t ih =>
    cases a <;> simp [doneConsistent, afterClose] at h ⊢ <;>
      first
        | exact h
        | exact ih _ h
        | exact ih _ h.2

theorem countP_send_audioActions (got : List Byte) (ok : Bool) :
    (audioActions got ok).countP Action.isSendRealtimeInput ≤ 1 := by
  unfold audioActions
  cases audioFor got <;> simp [Action.isSendRealtimeInput]

theorem countP_read_audioActions (got : List Byte) (ok : Bool) :
    (audioActions got ok).countP Action.isWsRead = 0 := by
  unfold audioActions
  cases audioFor got <;> simp [Action.isWsRead]

theorem counts_after_close_inboundLoop (buf : List Byte) (script : List ReadStep) :
    ∀ y, y <:+ (inboundLoop buf script).1 ++ deferredCloses (inboundLoop buf script).2 →
      (∀ b, Action.pollDone b ∈ y → b = true) →
      y.countP Action.isSendRealtimeInput ≤ 1 ∧ y.countP Action.isWsRead ≤ 1 := by
  induction script with
  | nil =>
    intro y hy _
    have : y = [] := by simpa [inboundLoop, deferredCloses] using hy
    subst this
    simp
  | cons s ss ih =>
    cases s with
    | err eof =>
      intro y hy _
      exact ⟨(hy.countP_le Action.isSendRealtimeInput).trans
          (by simp [inboundLoop, deferredCloses, Action.isSendRealtimeInput]),
        (hy.countP_le Action.isWsRead).trans
          (by simp [inboundLoop, deferredCloses, Action.isWsRead])⟩
    | data incoming sendOk doneClosed =>
      intro y hy hpoll
      have hs := countP_send_audioActions (List.take buf.length incoming) sendOk
      have hr := countP_read_audioActions (List.take buf.length incoming) sendOk
      rw [inboundLoop_data] at hy
      split at hy
      · have h1 := hy.countP_le Action.isSendRealtimeInput
        have h2 := hy.countP_le Action.isWsRead
        simp [deferredCloses, Action.isSendRealtimeInput, Action.isWsRead,
          List.countP_cons] at h1 h2
        omega
      · split at hy
        · have h1 := hy.countP_le Action.isSendRealtimeInput
          have h2 := hy.countP_le Action.isWsRead
          simp [deferredCloses, Action.isSendRealtimeInput, Action.isWsRead,
            List.countP_cons] at h1 h2
          omega
        · have hsplit :
              (Action.wsRead (List.take buf.length incoming) ::
                  audioActions (List.take buf.length incoming) sendOk ++
                Action.pollDone false :: (inboundLoop buf ss).1,
                (inboundLoop buf ss).2).1 ++
                deferredCloses
                  (Action.wsRead (List.take buf.length incoming) ::
                      audioActions (List.take buf.length incoming) sendOk ++
                    Action.pollDone false :: (inboundLoop buf ss).1,
                    (inboundLoop buf ss).2).2 =
              (Action.wsRead (List.take buf.length incoming) ::
                  audioActions (List.take buf.length incoming) sendOk) ++
                (Action.pollDone false ::
                  ((inboundLoop buf ss).1 ++ deferredCloses (inboundLoop buf ss).2)) := by
            simp
          rw [hsplit] at hy
          have htail : (Action.pollDone false ::
              ((inboundLoop buf ss).1 ++ deferredCloses (inboundLoop buf ss).2)) <:+
              (Action.wsRead (List.take buf.length incoming) ::
                  audioActions (List.take buf.length incoming) sendOk) ++
                (Action.pollDone false ::
                  ((inboundLoop buf ss).1 ++ deferredCloses (inboundLoop buf ss).2)) :=
            List.suffix_append _ _
          rcases List.suffix_or_suffix_of_suffix hy htail with h | h
          · rcases List.suffix_cons_iff.mp h with h | h
            · have := hpoll false (by rw [h]; simp)
              simp at this
            · exact ih y h hpoll
          · have hmem : Action.pollDone false ∈ y := h.subset (by simp)
            have := hpoll false hmem
            simp at this

theorem count_closeDone_outboundLoop (marshal : LiveServerMessage → Option (List Byte))
    (script : List RecvStep) :
    (outboundLoop marshal script).1.count Action.closeDone =
      if (outboundLoop marshal script).2 = OutStatus.blocked then 0 else 1 := by
  induction script with
  | nil => simp [outboundLoop]
  | cons s ss ih =>
    cases s with
    | err text => simp [outboundLoop]
    | msg m sendOks writeOk =>
      cases hnil : m.nilFree with
      | false =>
        rw [outboundLoop_msg_panic marshal m sendOks writeOk ss hnil]
        simp [List.count_cons, count_closeDone_toolCallBlock]
      | true =>
        cases hm : marshal m with
        | none =>
          rw [outboundLoop_msg_none marshal m sendOks writeOk ss hnil hm]
          simp [List.count_cons, count_closeDone_toolCallBlock, ih]
        | some b =>
          cases writeOk with
          | false =>
            rw [outboundLoop_msg_failed marshal m sendOks ss b hnil hm]
            simp [List.count_cons, count_closeDone_toolCallBlock]
          | true =>
            rw [outboundLoop_msg_written marshal m sendOks ss b hnil hm]
            simp [List.count_cons, count_closeDone_toolCallBlock, ih]

theorem getLast_outboundLoop (marshal : LiveServerMessage → Option (List Byte))
    (script : List RecvStep) (h : (outboundLoop marshal script).2 = OutStatus.exited) :
    (outboundLoop marshal script).1.getLast? = some Action.closeDone := by
  induction script with
  | nil => simp [outboundLoop] at h
  | cons s ss ih =>
    cases s with
    | err text => simp [outboundLoop]
    | msg m sendOks writeOk =>
      cases hnil : m.nilFree with
      | false => rw [outboundLoop_msg_panic marshal m sendOks writeOk ss hnil] at h; simp at h
      | true =>
        cases hm : marshal m with
        | none =>
          rw [outboundLoop_msg_none marshal m sendOks writeOk ss hnil hm] at h ⊢
          have := ih h
          simp only [← List.cons_append] at this ⊢
          rw [List.getLast?_append, this]
          rfl
        | some b =>
          cases writeOk with
          | false =>
            rw [outboundLoop_msg_failed marshal m sendOks ss b hnil hm]
            simp only [← List.cons_append]
            rw [List.getLast?_append]
            rfl
          | true =>
            rw [outboundLoop_msg_written marshal m sendOks ss b hnil hm] at h ⊢
            have := ih h
            simp only [← List.cons_append]
            rw [List.getLast?_append, List.getLast?_cons]
            simp [this]

theorem outboundLoop_err_last (marshal : LiveServerMessage → Option (List Byte))
    (script : List RecvStep) (text : String) :
    (outboundLoop marshal (script ++ [RecvStep.err text])).2 ≠ OutStatus.blocked := by
  by_cases h : (outboundLoop marshal script).2 = OutStatus.blocked
  · rw [outboundLoop_append marshal script _ h]
    simp [outboundLoop]
  · rw [outboundLoop_append_done marshal script _ h]
    exact h

theorem closeDone_not_mem_inboundLoop (buf : List Byte) (script : List ReadStep) :
    Action.closeDone ∉ (inboundLoop buf script).1 ++ deferredCloses (inboundLoop buf script).2 := by
  induction script with
  | nil => simp [inboundLoop, deferredCloses]
  | cons s ss ih =>
    cases s with
    | err eof => simp [inboundLoop, deferredCloses]
    | data incoming sendOk doneClosed =>
      have ha : Action.closeDone ∉ audioActions (List.take buf.length incoming) sendOk := by
        unfold audioActions
        cases audioFor (List.take buf.length incoming) <;> simp
      rw [inboundLoop_data]
      split
      · simp [deferredCloses, ha]
      · split
        · simp [deferredCloses, ha]
        · simp only [List.mem_append, List.mem_cons, not_or] at ih ⊢
          simp [ha, ih]

theorem Handle_connected (marshal : LiveServerMessage → Option (List Byte))
    (upstream : List RecvStep) (client : List ReadStep) :
    Handle marshal true upstream client =
      { main := Action.connect model [tools.WeatherTool] true :: Action.go ::
          ((inboundLoop (List.replicate 4096 0) client).1 ++
            deferredCloses (inboundLoop (List.replicate 4096 0) client).2),
        goroutine := (outboundLoop marshal upstream).1,
        returned := decide ((inboundLoop (List.replicate 4096 0) client).2 ≠ InStatus.blocked),
        started := true,
        outStatus := (outboundLoop marshal upstream).2 } := by
  simp only [Handle, ↓reduceIte]

theorem Handle_not_connected (marshal : LiveServerMessage → Option (List Byte))
    (upstream : List RecvStep) (client : List ReadStep) :
    Handle marshal false upstream client =
      { main := [Action.connect model [tools.WeatherTool] false, Action.wsClose],
        goroutine := [],
        returned := true,
        started := false,
        outStatus := OutStatus.blocked } := rfl

theorem count_closeDone_goroutine (marshal : LiveServerMessage → Option (List Byte))
    (connectOk : Bool) (upstream : List RecvStep) (client : List ReadStep) :
    (Handle marshal connectOk upstream client).goroutine.count Action.closeDone =
      if (Handle marshal connectOk upstream client).outStatus = OutStatus.blocked then 0
      else 1 := by
  cases connectOk with
  | false => rw [Handle_not_connected]; simp
  | true => rw [Handle_connected]; exact count_closeDone_outboundLoop marshal upstream

theorem closeDone_not_mem_main (marshal : LiveServerMessage → Option (List Byte))
    (connectOk : Bool) (upstream : List RecvStep) (client : List ReadStep) :
    Action.closeDone ∉ (Handle marshal connectOk upstream client).main := by
  cases connectOk with
  | false => rw [Handle_not_connected]; simp
  | true =>
    rw [Handle_connected]
    have := closeDone_not_mem_inboundLoop (List.replicate 4096 0) client
    simp only [List.mem_cons, not_or]
    exact ⟨by simp, by simp, this⟩

theorem counts_after_close_main (marshal : LiveServerMessage → Option (List Byte))
    (connectOk : Bool) (upstream : List RecvStep) (client : List ReadStep) :
    ∀ y, y <:+ (Handle marshal connectOk upstream client).main →
      (∀ b, Action.pollDone b ∈ y → b = true) →
      y.countP Action.isSendRealtimeInput ≤ 1 ∧ y.countP Action.isWsRead ≤ 1 := by
  cases connectOk with
  | false =>
    intro y hy _
    rw [Handle_not_connected] at hy
    exact ⟨(hy.countP_le Action.isSendRealtimeInput).trans
        (by simp [Action.isSendRealtimeInput]),
      (hy.countP_le Action.isWsRead).trans (by simp [Action.isWsRead])⟩
  | true =>
    intro y hy hpoll
    rw [Handle_connected] at hy
    generalize List.replicate 4096 0 = buf at hy
    have hloop := counts_after_close_inboundLoop buf client
    rcases List.suffix_cons_iff.mp hy with h | h
    · have := hloop _ (List.suffix_refl _) (by
        intro b hb
        exact hpoll b (by rw [h]; simp [hb]))
      rw [h]
      simpa [List.countP_cons, Action.isSendRealtimeInput, Action.isWsRead] using this
    · rcases List.suffix_cons_iff.mp h with h | h
      · have := hloop _ (List.suffix_refl _) (by
          intro b hb
          exact hpoll b (by rw [h]; simp [hb]))
        rw [h]
        simpa [List.countP_cons, Action.isSendRealtimeInput, Action.isWsRead] using this
      · exact hloop y h hpoll

theorem send_not_goroutine (a : Action) (h : a.isSendRealtimeInput = true) :
    a.isGoroutine = false := by
  cases a <;> simp_all [Action.isSendRealtimeInput, Action.isGoroutine]

theorem read_not_goroutine (a : Action) (h : a.isWsRead = true) :
    a.isGoroutine = false := by
  cases a <;> simp_all [Action.isWsRead, Action.isGoroutine]

theorem countP_main_filter (p : Action → Bool) (hp : ∀ a, p a = true → a.isGoroutine = false)
    (t : List Action) :
    t.countP p = (t.filter (fun a => !a.isGoroutine)).countP p := by
  rw [List.countP_filter]
  apply List.countP_congr
  intro a _
  constructor
  · intro h; simp [h, hp a h]
  · intro h; simp at h; exact h.1

/-! ## The claims on the completion signal -/

/-- C6: there is one completion signal per session and it is set exactly
once.  In every global trace of every run `close(done)` occurs at most once,
and it occurs exactly when the goroutine "Gemini -> Client" is over, as the
last action of the goroutine when it returned; the goroutine returns on
every `Receive` error (and on a client write failure, C7).  The main loop is
left on a read error, on the end of the stream and on a failed send, and
`Handle` then returns through the deferred `session.Close()` and
`ws.Close()`; closing the session ends the pending `Receive` with an error,
and in every run whose upstream side ends with such a `Receive` error, so in
particular when the main loop is left first, `close(done)` occurs exactly
once. -/
theorem done_set_exactly_once (marshal : LiveServerMessage → Option (List Byte))
    (upstream : List RecvStep) (client : List ReadStep) :
    (∀ (connectOk : Bool) (t : List Action),
      isSessionTrace (Handle marshal connectOk upstream client) t →
      t.count Action.closeDone ≤ 1 ∧
      (t.count Action.closeDone = 1 ↔
        (Handle marshal connectOk upstream client).outStatus ≠ OutStatus.blocked) ∧
      ((Handle marshal connectOk upstream client).outStatus = OutStatus.exited →
        (Handle marshal connectOk upstream client).goroutine.getLast? =
          some Action.closeDone)) ∧
    (∀ before text rest, (outboundLoop marshal before).2 = OutStatus.blocked →
      outboundLoop marshal (before ++ RecvStep.err text :: rest) =
        ((outboundLoop marshal before).1 ++ [Action.receiveErr text, Action.closeDone],
          OutStatus.exited)) ∧
    (∀ (buf : List Byte) (before rest : List ReadStep) (eof : Bool),
      (inboundLoop buf before).2 = InStatus.blocked →
      inboundLoop buf (before ++ ReadStep.err eof :: rest) =
        ((inboundLoop buf before).1 ++ [Action.wsReadErr eof], InStatus.broke)) ∧
    (∀ (buf : List Byte) (before rest : List ReadStep) (incoming : List Byte)
        (doneClosed : Bool),
      (inboundLoop buf before).2 = InStatus.blocked →
      0 < (incoming.take buf.length).length →
      inboundLoop buf (before ++ ReadStep.data incoming false doneClosed :: rest) =
        ((inboundLoop buf before).1 ++
          [Action.wsRead (incoming.take buf.length),
           Action.sendRealtimeInput
             { Media := some { MIMEType := "audio/pcm;rate=16000",
                               Data := incoming.take buf.length } } false],
          InStatus.broke)) ∧
    ((Handle marshal true upstream client).returned = true →
      ∃ acts, (Handle marshal true upstream client).main =
        acts ++ [Action.sessionClose, Action.wsClose]) ∧
    (∀ (text : String) (t : List Action),
      isSessionTrace (Handle marshal true (upstream ++ [RecvStep.err text]) client) t →
      t.count Action.closeDone = 1) := by
  have hcount : ∀ (connectOk : Bool) (up : List RecvStep) (t : List Action),
      isSessionTrace (Handle marshal connectOk up client) t →
      t.count Action.closeDone =
        if (Handle marshal connectOk up client).outStatus = OutStatus.blocked then 0
        else 1 := by
    intro connectOk up t ht
    obtain ⟨-, hgo, -, -⟩ := ht
    have hfilter : (t.filter (fun a => a.isGoroutine)).count Action.closeDone =
        t.count Action.closeDone := List.count_filter rfl
    rw [← count_closeDone_goroutine, ← hgo, hfilter]
  refine ⟨?_, ?_, ?_, ?_, ?_, ?_⟩
  · intro connectOk t ht
    have hc := hcount connectOk upstream t ht
    refine ⟨?_, ?_, ?_⟩
    · rw [hc]; split <;> omega
    · rw [hc]
      constructor
      · intro h hb
        rw [if_pos hb] at h
        omega
      · intro h
        rw [if_neg h]
    · intro h
      cases connectOk with
      | false => rw [Handle_not_connected] at h; simp at h
      | true =>
        rw [Handle_connected] at h ⊢
        exact getLast_outboundLoop marshal upstream h
  · intro before text rest hb
    rw [outboundLoop_append marshal before _ hb]
    simp [outboundLoop]
  · intro buf before rest eof hb
    rw [inboundLoop_append buf before _ hb]
    simp [inboundLoop]
  · intro buf before rest incoming doneClosed hb hpos
    rw [inboundLoop_append buf before _ hb, inboundLoop_data,
      if_pos ⟨hpos, rfl⟩, audioActions_pos _ _ hpos]
  · intro hret
    rw [Handle_connected] at hret ⊢
    generalize List.replicate 4096 0 = buf at hret ⊢
    have hne : (inboundLoop buf client).2 ≠ InStatus.blocked := by simpa using hret
    refine ⟨Action.connect model [tools.WeatherTool] true :: Action.go ::
      (inboundLoop buf client).1, ?_⟩
    simp [deferredCloses, hne]
  · intro text t ht
    rw [hcount true _ t ht, Handle_connected]
    exact if_neg (outboundLoop_err_last marshal upstream text)

/-- Witness of C6: the client stream ends first; `Handle` leaves its loop
and closes the session, the pending `Receive` fails, and the goroutine sets
`done`, once. -/
theorem done_set_exactly_once_witness :
    isSessionTrace
        (Handle marshalSample true ([] ++ [RecvStep.err "use of closed network connection"])
          [ReadStep.err true])
        [Action.connect model [tools.WeatherTool] true, Action.go, Action.wsReadErr true,
          Action.sessionClose, Action.wsClose,
          Action.receiveErr "use of closed network connection", Action.closeDone] ∧
    List.count Action.closeDone
        [Action.connect model [tools.WeatherTool] true, Action.go, Action.wsReadErr true,
          Action.sessionClose, Action.wsClose,
          Action.receiveErr "use of closed network connection", Action.closeDone] = 1 :=
  ⟨by decide,
   (done_set_exactly_once marshalSample [] [ReadStep.err true]).2.2.2.2.2
      "use of closed network connection"
      [Action.connect model [tools.WeatherTool] true, Action.go, Action.wsReadErr true,
        Action.sessionClose, Action.wsClose,
        Action.receiveErr "use of closed network connection", Action.closeDone]
      (by decide)⟩

/-- C10: the main loop polls `done` once per successful read, after the
chunk of that read (if it has positive length) has been sent.  When the loop
has run through the steps `before` and the next read succeeds and its send
does not fail: if the poll finds `done` closed, the trace ends with that
poll and the loop is left by `return`, whatever the client holds next (no
further read, no further send); if it does not, the loop goes on with the
remaining steps.  In every global trace of a run, at most one
`SendRealtimeInput` and at most one successful `ws.Read` come after the
`close(done)`. -/
theorem done_polled_after_each_chunk :
    (∀ (buf : List Byte) (before rest : List ReadStep) (incoming : List Byte)
        (sendOk : Bool),
      (inboundLoop buf before).2 = InStatus.blocked →
      (incoming.take buf.length = [] ∨ sendOk = true) →
      inboundLoop buf (before ++ ReadStep.data incoming sendOk true :: rest) =
        ((inboundLoop buf before).1 ++
          (Action.wsRead (incoming.take buf.length) ::
            (if 0 < (incoming.take buf.length).length then
              [Action.sendRealtimeInput
                { Media := some { MIMEType := "audio/pcm;rate=16000",
                                  Data := incoming.take buf.length } } true]
             else []) ++ [Action.pollDone true]),
          InStatus.returned) ∧
      inboundLoop buf (before ++ ReadStep.data incoming sendOk false :: rest) =
        ((inboundLoop buf before).1 ++
          (Action.wsRead (incoming.take buf.length) ::
            (if 0 < (incoming.take buf.length).length then
              [Action.sendRealtimeInput
                { Media := some { MIMEType := "audio/pcm;rate=16000",
                                  Data := incoming.take buf.length } } true]
             else []) ++ Action.pollDone false :: (inboundLoop buf rest).1),
          (inboundLoop buf rest).2)) ∧
    (∀ (marshal : LiveServerMessage → Option (List Byte)) (connectOk : Bool)
        (upstream : List RecvStep) (client : List ReadStep) (t : List Action),
      isSessionTrace (Handle marshal connectOk upstream client) t →
      (afterClose t).countP Action.isSendRealtimeInput ≤ 1 ∧
      (afterClose t).countP Action.isWsRead ≤ 1) := by
  constructor
  · intro buf before rest incoming sendOk hb hsend
    have hact : audioActions (incoming.take buf.length) sendOk =
        (if 0 < (incoming.take buf.length).length then
          [Action.sendRealtimeInput
            { Media := some { MIMEType := "audio/pcm;rate=16000",
                              Data := incoming.take buf.length } } true]
         else []) := by
      rcases hsend with h | h
      · rw [h]; simp [audioActions, audioFor]
      · rw [h]; unfold audioActions audioFor; split <;> simp
    have hnot : ¬ (0 < (incoming.take buf.length).length ∧ sendOk = false) := by
      rcases hsend with h | h
      · rw [h]; simp
      · rw [h]; simp
    constructor
    · rw [inboundLoop_append buf before _ hb, inboundLoop_data, if_neg hnot, hact]
      simp
    · rw [inboundLoop_append buf before _ hb, inboundLoop_data, if_neg hnot, hact]
      simp
  · intro marshal connectOk upstream client t ht
    obtain ⟨hmain, -, -, hdone⟩ := ht
    have hsuf : (afterClose t).filter (fun a => !a.isGoroutine) <:+
        (Handle marshal connectOk upstream client).main := by
      rw [← hmain]
      exact (afterClose_suffix t).filter _
    have hpolls : ∀ b, Action.pollDone b ∈ (afterClose t).filter (fun a => !a.isGoroutine) →
        b = true := by
      intro b hb
      exact polls_of_doneConsistent_true _ (doneConsistent_afterClose _ _ hdone) b
        (List.mem_filter.mp hb).1
    have := counts_after_close_main marshal connectOk upstream client _ hsuf hpolls
    rw [countP_main_filter Action.isSendRealtimeInput send_not_goroutine,
      countP_main_filter Action.isWsRead read_not_goroutine]
    exact this

theorem sample_run_closed_midway :
    isSessionTrace
        (Handle marshalSample true [RecvStep.err "EOF"]
          [ReadStep.data [1, 2] true false, ReadStep.data [3] true true,
            ReadStep.data [4] true true])
        [Action.connect model [tools.WeatherTool] true, Action.go,
          Action.wsRead [1, 2],
          Action.sendRealtimeInput
            { Media := some { MIMEType := "audio/pcm;rate=16000", Data := [1, 2] } } true,
          Action.pollDone false,
          Action.receiveErr "EOF", Action.closeDone,
          Action.wsRead [3],
          Action.sendRealtimeInput
            { Media := some { MIMEType := "audio/pcm;rate=16000", Data := [3] } } true,
          Action.pollDone true, Action.sessionClose, Action.wsClose] := by
  rw [Handle_connected, inboundLoop_data_sent _ [1, 2] _ (by decide)
    (by rw [List.length_replicate]; decide), inboundLoop_data]
  have htake : List.take (List.replicate 4096 (0 : Byte)).length [3] = [3] :=
    List.take_of_length_le (by rw [List.length_replicate]; decide)
  rw [htake]
  decide

/-- Witness of C10: the goroutine closes `done` while the main loop waits
for its second chunk; that chunk is still read and sent, the poll after it
finds `done` closed and `Handle` returns without reading the third. -/
theorem done_polled_after_each_chunk_witness :
    isSessionTrace
        (Handle marshalSample true [RecvStep.err "EOF"]
          [ReadStep.data [1, 2] true false, ReadStep.data [3] true true,
            ReadStep.data [4] true true])
        [Action.connect model [tools.WeatherTool] true, Action.go,
          Action.wsRead [1, 2],
          Action.sendRealtimeInput
            { Media := some { MIMEType := "audio/pcm;rate=16000", Data := [1, 2] } } true,
          Action.pollDone false,
          Action.receiveErr "EOF", Action.closeDone,
          Action.wsRead [3],
          Action.sendRealtimeInput
            { Media := some { MIMEType := "audio/pcm;rate=16000", Data := [3] } } true,
          Action.pollDone true, Action.sessionClose, Action.wsClose] ∧
    (afterClose
        [Action.connect model [tools.WeatherTool] true, Action.go,
          Action.wsRead [1, 2],
          Action.sendRealtimeInput
            { Media := some { MIMEType := "audio/pcm;rate=16000", Data := [1, 2] } } true,
          Action.pollDone false,
          Action.receiveErr "EOF", Action.closeDone,
          Action.wsRead [3],
          Action.sendRealtimeInput
            { Media := some { MIMEType := "audio/pcm;rate=16000", Data := [3] } } true,
          Action.pollDone true, Action.sessionClose, Action.wsClose]).countP
        Action.isSendRealtimeInput ≤ 1 :=
  ⟨sample_run_closed_midway,
   (done_polled_after_each_chunk.2 marshalSample true [RecvStep.err "EOF"]
      [ReadStep.data [1, 2] true false, ReadStep.data [3] true true,
        ReadStep.data [4] true true] _ sample_run_closed_midway).1⟩

end LiveApi
